import Mathlib

/-
Verification development for the ncov data scraper (scraper.py, hb_scraper.py).

The embedding is shallow: every pure computation of the two Python modules is
translated into an executable Lean definition.  Conventions used throughout:

* Python `None` / a missing dictionary key is `Option.none`; database integer
  columns are `Option Int`.
* A Python exception that the code does not catch is an `Except.error` value
  of an explicit error type (`TypeError` on arithmetic with `None`,
  `ValueError` from `datetime.date`, `KeyError` from a missing dict key,
  `peewee.IntegrityError` from a violated unique constraint, ...).
* The title regular expression `title_pattern` is embedded concretely as a
  character-list matcher (`title_pattern_match`); Python's `\w` is modelled by
  `isWordChar` covering the character repertoire of these bulletins (ASCII
  alphanumerics, underscore, CJK ideographs).
* The per-indicator body regular expressions are not re-implemented; a body
  text enters the extraction loop only through the outcomes of `re.search`
  for each pattern, so a body is represented by those outcomes: a function
  from the indicator (category) to the captured non-negative integer, or
  `none` when the pattern finds no match.  Negative-phrasing patterns get a
  second such function.
* The sqlite store is a `List DataEntry`; `peewee`'s `get` / `create` /
  `update` calls are translated explicitly.
-/

namespace Ncov

/-! ## Calendar dates (`datetime.date`, restricted to what the scraper uses) -/

structure Date where
  year : Nat
  month : Nat
  day : Nat
deriving DecidableEq

def isLeapYear (y : Nat) : Bool :=
  y % 4 == 0 && (y % 100 != 0 || y % 400 == 0)

def daysInMonth (y m : Nat) : Nat :=
  if m == 2 then (if isLeapYear y then 29 else 28)
  else if m == 4 || m == 6 || m == 9 || m == 11 then 30
  else 31

/-- `datetime.date(y, m, d)`: succeeds exactly on valid calendar dates,
raises `ValueError` (here: `none`) otherwise. -/
def mkDate (y m d : Nat) : Option Date :=
  if 1 ≤ m ∧ m ≤ 12 ∧ 1 ≤ d ∧ d ≤ daysInMonth y m then some ⟨y, m, d⟩ else none

/-- `d - datetime.timedelta(days=1)` on a valid date. -/
def prevDay (d : Date) : Date :=
  if 1 < d.day then ⟨d.year, d.month, d.day - 1⟩
  else if 1 < d.month then ⟨d.year, d.month - 1, daysInMonth d.year (d.month - 1)⟩
  else ⟨d.year - 1, 12, 31⟩

/-! ## Strings: Python code-point comparison and `f"{n:02}"` formatting -/

/-- Python `str.__lt__`: lexicographic comparison by code point. -/
def strLt : List Char → List Char → Bool
  | [], [] => false
  | [], _ :: _ => true
  | _ :: _, [] => false
  | a :: as, b :: bs =>
    if a.toNat < b.toNat then true
    else if a.toNat == b.toNat then strLt as bs
    else false

/-- `f"{n:02}"`: decimal digits, left-padded with a zero to width two. -/
def fmt2 (n : Nat) : List Char :=
  if n < 10 then ['0', Nat.digitChar n] else Nat.toDigits 10 n

/-- `f"{month:02}-{day:02}"`, the normalized `MM-DD` string used for the
introduction-threshold comparisons. -/
def dateStrOf (m d : Nat) : List Char :=
  fmt2 m ++ '-' :: fmt2 d

/-! ## The title regular expression of scraper.py

`title_pattern = ^(?P<until>截至)?(?P<month>\d+)月(?P<day>\d+)日\w+疫情(最新)?情况$`
-/

/-- Python `\w` on the character repertoire these bulletins use:
ASCII alphanumerics, the underscore, and CJK unified ideographs. -/
def isWordChar (c : Char) : Bool :=
  c.isAlphanum || c == '_' || (0x4E00 ≤ c.toNat && c.toNat ≤ 0x9FFF)

/-- Splits the longest leading run of ASCII decimal digits (`\d+` is greedy;
the characters following it in the pattern are never digits, so the greedy
match is the only possible one). -/
def leadingDigits : List Char → List Char × List Char
  | [] => ([], [])
  | c :: cs =>
    if c.isDigit then
      let (ds, r) := leadingDigits cs
      (c :: ds, r)
    else ([], c :: cs)

/-- Python `int` on a non-empty string of decimal digits. -/
def digitsToNat (ds : List Char) : Nat :=
  ds.foldl (fun a c => 10 * a + (c.toNat - 48)) 0

/-- The tail `\w+疫情(最新)?情况$`: at least one word character, then the
literal `疫情`, an optional `最新`, and the literal `情况` ending the string.
The recursion realises the backtracking choice of where `\w+` stops. -/
def titleTailMatch : List Char → Bool
  | [] => false
  | c :: rest =>
    isWordChar c &&
      (rest == ('疫' :: '情' :: '情' :: '况' :: [])
        || rest == ('疫' :: '情' :: '最' :: '新' :: '情' :: '况' :: [])
        || titleTailMatch rest)

/-- The named capture groups of a successful `title_pattern.match`. -/
structure TitleGroups where
  untilMark : Bool
  month : Nat
  day : Nat
deriving DecidableEq

/-- `title_pattern.match(title)`: `none` when the title does not have the
expected shape.  The optional `截至` prefix is deterministic because `截` is
not a digit, so a failed continuation cannot be rescued by not consuming it. -/
def title_pattern_match (t : List Char) : Option TitleGroups :=
  let (um, t1) :=
    if t.take 2 == ('截' :: '至' :: []) then (true, t.drop 2) else (false, t)
  let (mds, t2) := leadingDigits t1
  if mds.isEmpty then none
  else
    match t2 with
    | '月' :: t3 =>
      let (dds, t4) := leadingDigits t3
      if dds.isEmpty then none
      else
        match t4 with
        | '日' :: t5 =>
          if titleTailMatch t5 then some ⟨um, digitsToNat mds, digitsToNat dds⟩
          else none
        | _ => none
    | _ => none

/-! ## The data model of scraper.py (`DataEntry`) -/

/-- The 25 optional integer columns of `DataEntry` (the `date` primary key and
the `article_*` audit columns are separate structure fields). -/
inductive Field
  | total_confirmed
  | remaining_confirmed
  | remaining_severe
  | remaining_suspected
  | cured
  | death
  | new_confirmed
  | new_severe
  | new_suspected
  | new_cured
  | new_death
  | total_tracked
  | new_lifted
  | remaining_quarantined
  | hb_total_confirmed
  | hb_remaining_confirmed
  | hb_remaining_severe
  | hb_remaining_suspected
  | hb_cured
  | hb_death
  | hb_new_confirmed
  | hb_new_severe
  | hb_new_suspected
  | hb_new_cured
  | hb_new_death
deriving DecidableEq

/-- One stored record.  The body text is not carried: it only ever enters the
engine through the regular-expression outcomes (see the module comment). -/
structure DataEntry where
  date : Date
  fields : Field → Option Int
  article_url : String
  article_title : List Char

/-- `DataEntry.get(date=d)` over the store (peewee returns the first row;
the date column is unique). -/
def dbGet (db : List DataEntry) (d : Date) : Option DataEntry :=
  db.find? (fun e => e.date == d)

/-- The urls already recorded (`entry.article_url for entry in select()`). -/
def urls (db : List DataEntry) : List String :=
  db.map (fun e => e.article_url)

/-- The `remaining_confirmed_calc` property.  `total_confirmed - cured - death`
is Python arithmetic on nullable columns: when `cured` and `death` are present
but `total_confirmed` is `None`, `None - cured` raises `TypeError`
(`Except.error`). -/
def remaining_confirmed_calc (e : DataEntry) : Except Unit (Option Int) :=
  match e.fields .remaining_confirmed with
  | some v => .ok (some v)
  | none =>
    match e.fields .cured, e.fields .death with
    | some c, some d =>
      match e.fields .total_confirmed with
      | some t => .ok (some (t - c - d))
      | none => .error ()
    | _, _ => .ok none

/-- The `hb_new_severe_calc` property: fall back to the difference of
`hb_remaining_severe` against the previous date's stored record. -/
def hb_new_severe_calc (db : List DataEntry) (e : DataEntry) : Option Int :=
  match e.fields .hb_new_severe with
  | some v => some v
  | none =>
    match e.fields .hb_remaining_severe with
    | some cur =>
      match dbGet db (prevDay e.date) with
      | none => none
      | some prev =>
        match prev.fields .hb_remaining_severe with
        | some p => some (cur - p)
        | none => none
    | none => none

/-- The quantities `Q` for which `not_hb_Q` is read (the export loop of
`main`): exactly those with both a national and an `hb_` column. -/
inductive Quantity
  | total_confirmed
  | remaining_confirmed
  | remaining_severe
  | remaining_suspected
  | cured
  | death
  | new_confirmed
  | new_severe
  | new_suspected
  | new_cured
  | new_death
deriving DecidableEq

/-- `name[7:]` of `not_hb_Q`: the national column. -/
def natField : Quantity → Field
  | .total_confirmed => .total_confirmed
  | .remaining_confirmed => .remaining_confirmed
  | .remaining_severe => .remaining_severe
  | .remaining_suspected => .remaining_suspected
  | .cured => .cured
  | .death => .death
  | .new_confirmed => .new_confirmed
  | .new_severe => .new_severe
  | .new_suspected => .new_suspected
  | .new_cured => .new_cured
  | .new_death => .new_death

/-- `name[4:]` of `not_hb_Q`: the provincial column. -/
def hbField : Quantity → Field
  | .total_confirmed => .hb_total_confirmed
  | .remaining_confirmed => .hb_remaining_confirmed
  | .remaining_severe => .hb_remaining_severe
  | .remaining_suspected => .hb_remaining_suspected
  | .cured => .hb_cured
  | .death => .hb_death
  | .new_confirmed => .hb_new_confirmed
  | .new_severe => .hb_new_severe
  | .new_suspected => .hb_new_suspected
  | .new_cured => .hb_new_cured
  | .new_death => .hb_new_death

/-- `getattr(self, f"{attr}_calc")`: only two `_calc` properties exist on the
class; every other `..._calc` name falls through to `__getattr__`, which
raises `AttributeError` for it (`none` here). -/
def getattrCalc (db : List DataEntry) (e : DataEntry) :
    Field → Option (Except Unit (Option Int))
  | .remaining_confirmed => some (remaining_confirmed_calc e)
  | .hb_new_severe => some (.ok (hb_new_severe_calc db e))
  | _ => none

/-- One operand of `__getattr__`: the column itself, falling back to its
`_calc` property when the direct value is `None` and the property exists
(the `except AttributeError: pass` in the source). -/
def resolveOperand (db : List DataEntry) (e : DataEntry) (f : Field) :
    Except Unit (Option Int) :=
  match e.fields f with
  | some v => .ok (some v)
  | none =>
    match getattrCalc db e f with
    | some r => r
    | none => .ok none

/-- `DataEntry.__getattr__` for a `not_hb_Q` name: resolve the national
operand, then the provincial operand, and subtract when both are concrete. -/
def not_hb (db : List DataEntry) (e : DataEntry) (q : Quantity) :
    Except Unit (Option Int) :=
  match resolveOperand db e (natField q) with
  | .error u => .error u
  | .ok nv =>
    match resolveOperand db e (hbField q) with
    | .error u => .error u
    | .ok hv =>
      match nv, hv with
      | some a, some b => .ok (some (a - b))
      | _, _ => .ok none

/-! ### Spec-side definitions (for refinement comparison only)

These follow the wording of the specification, not the source, and exist to
be compared with the source-derived definitions above. -/

/-- Spec-side `remaining_confirmed` derivation: "if directly extracted, use
it; else if both cumulative-confirmed and cured-and-death are present, compute
`total_confirmed − cured − death`; else absent". -/
def spec_remaining_confirmed_calc (e : DataEntry) : Option Int :=
  match e.fields .remaining_confirmed with
  | some v => some v
  | none =>
    match e.fields .total_confirmed, e.fields .cured, e.fields .death with
    | some t, some c, some d => some (t - c - d)
    | _, _, _ => none

/-- Spec-side `hb_new_severe` derivation: "if directly extracted, use it; else
if the current and immediately preceding date's `remaining_severe` are both
present, compute their difference; else absent". -/
def spec_hb_new_severe_calc (db : List DataEntry) (e : DataEntry) : Option Int :=
  match e.fields .hb_new_severe with
  | some v => some v
  | none =>
    match e.fields .hb_remaining_severe, (dbGet db (prevDay e.date)).bind
        (fun prev => prev.fields .hb_remaining_severe) with
    | some cur, some p => some (cur - p)
    | _, _ => none

/-- Spec-side operand resolution: the direct value, "falling back to each
operand's own derived value if its direct value is absent". -/
def spec_resolve (db : List DataEntry) (e : DataEntry) (f : Field) : Option Int :=
  match e.fields f with
  | some v => some v
  | none =>
    match f with
    | .remaining_confirmed => spec_remaining_confirmed_calc e
    | .hb_new_severe => spec_hb_new_severe_calc db e
    | _ => none

/-- Spec-side `non_provincial_Q`: "always `national_Q − provincial_Q` ...,
defined only if both operands resolve to a concrete integer; otherwise
absent". -/
def spec_not_hb (db : List DataEntry) (e : DataEntry) (q : Quantity) : Option Int :=
  match spec_resolve db e (natField q), spec_resolve db e (hbField q) with
  | some a, some b => some (a - b)
  | _, _ => none

/-- The one shape on which `remaining_confirmed_calc` raises `TypeError`:
the direct value absent, `cured` and `death` present, `total_confirmed`
absent. -/
def remainingConfirmedCrash (e : DataEntry) : Prop :=
  e.fields .remaining_confirmed = none ∧
  (e.fields .cured).isSome = true ∧
  (e.fields .death).isSome = true ∧
  e.fields .total_confirmed = none

instance (e : DataEntry) : Decidable (remainingConfirmedCrash e) := by
  unfold remainingConfirmedCrash
  infer_instance

/-! ## The national extraction loop of scraper.py (`parse_article`) -/

/-- The iteration order of the `patterns` dict. -/
def natOrder : List Field :=
  [.new_confirmed, .hb_new_confirmed, .new_severe, .hb_new_severe,
   .new_death, .hb_new_death, .new_suspected, .hb_new_suspected,
   .new_cured, .hb_new_cured, .new_lifted,
   .remaining_confirmed, .hb_remaining_confirmed,
   .remaining_severe, .hb_remaining_severe,
   .cured, .hb_cured, .death, .hb_death,
   .total_confirmed, .hb_total_confirmed,
   .remaining_suspected, .hb_remaining_suspected,
   .total_tracked, .remaining_quarantined]

/-- The `introduced` dict of scraper.py: the `MM-DD` threshold before which a
missing match is silent. -/
def introduced : Field → Option (List Char)
  | .new_death => some ("01-21".data)
  | .death => some ("01-21".data)
  | .remaining_severe => some ("01-21".data)
  | .new_cured => some ("01-23".data)
  | .cured => some ("01-23".data)
  | .new_severe => some ("01-25".data)
  | .hb_new_death => some ("01-25".data)
  | .hb_new_confirmed => some ("02-01".data)
  | .hb_new_severe => some ("02-01".data)
  | .hb_new_suspected => some ("02-01".data)
  | .hb_new_cured => some ("02-01".data)
  | .remaining_confirmed => some ("02-06".data)
  | .hb_total_confirmed => some ("02-12".data)
  | .hb_remaining_confirmed => some ("02-12".data)
  | .hb_remaining_severe => some ("02-12".data)
  | .hb_remaining_suspected => some ("02-12".data)
  | .hb_cured => some ("02-12".data)
  | .hb_death => some ("02-12".data)
  | _ => none

/-- Membership in the `negative_patterns` dict (only `new_severe` has a
decrease-phrasing rule). -/
def hasNegativePattern : Field → Bool
  | .new_severe => true
  | _ => false

/-- A body text, as the extraction loop observes it: for each category, the
integer captured by `re.search(pattern, body, re.M)` (from whichever of the
one or two alternative groups is populated), or `none` when the pattern finds
no match.  Captures are `\d+`, hence natural numbers. -/
def BodyMatches := Field → Option Nat

/-- One iteration of the extraction loop: primary pattern first, then the
negative-phrasing pattern (negated capture) when one exists. -/
def extractValue (raw neg : BodyMatches) (f : Field) : Option Int :=
  match raw f with
  | some n => some (Int.ofNat n)
  | none =>
    if hasNegativePattern f then
      match neg f with
      | some n => some (-(Int.ofNat n))
      | none => none
    else none

/-- The guard `category in introduced and date_str < introduced[category]`:
when true the missing match is expected and silent. -/
def silentBeforeThreshold (f : Field) (dateStr : List Char) : Bool :=
  match introduced f with
  | some thr => strLt dateStr thr
  | none => false

inductive ParseErr
  /-- `title_pattern.match` returned `None` and `m["month"]` raised. -/
  | titleNoMatch
  /-- `datetime.date(2020, month, day)` raised `ValueError`. -/
  | badDate
deriving DecidableEq

/-- Lines 249–257 of scraper.py: match the title, subtract one day when the
`截至` marker is absent, build the date and the `MM-DD` string. -/
def resolve_title_date (title : List Char) :
    Except ParseErr (Date × List Char) :=
  match title_pattern_match title with
  | none => .error .titleNoMatch
  | some g =>
    let day := if g.untilMark then g.day else g.day - 1
    match mkDate 2020 g.month day with
    | none => .error .badDate
    | some dt => .ok (dt, dateStrOf g.month day)

/-- The result of a successful national `parse_article`. -/
structure Parsed where
  date : Date
  dateStr : List Char
  data : Field → Option Int
  diags : List (Date × Field)

/-- `parse_article(title, body)` of scraper.py: resolve the date, then run the
extraction loop, collecting the `logger.critical` no-match diagnostics. -/
def parse_article (title : List Char) (raw neg : BodyMatches) :
    Except ParseErr Parsed :=
  match resolve_title_date title with
  | .error e => .error e
  | .ok (dt, ds) =>
    .ok { date := dt
          dateStr := ds
          data := fun f => extractValue raw neg f
          diags :=
            (natOrder.filter (fun f =>
              (extractValue raw neg f).isNone && !silentBeforeThreshold f ds)).map
              (fun f => (dt, f)) }

/-! ## The national pipeline (`get_article_list` and `main` of scraper.py) -/

/-- The page-1 title filter of `get_single_page`: keep anchors whose `title`
attribute matches `title_pattern`. -/
def matchingArticles (page : List (String × String)) : List (String × String) :=
  page.filter (fun a => (title_pattern_match a.2.data).isSome)

/-- The hard-coded crawl boundary of `get_article_list`. -/
def boundaryTitle : String := "1月21日新型冠状病毒感染的肺炎疫情情况"

/-- `get_article_list(seen_urls)`: walk the paginated index, filtering each
page's anchors by `title_pattern` and stopping once the accumulated list ends
with the boundary title or with an already-seen url; the accumulated list is
returned reversed (oldest first).  `none` models a crash: `articles[-1]` on an
empty list (`IndexError`), or running off the available index pages. -/
def walkPages : List (List (String × String)) → List String →
    List (String × String) → Option (List (String × String))
  | [], _, _ => none
  | pg :: rest, seen, acc =>
    let acc' := acc ++ matchingArticles pg
    match acc'.getLast? with
    | none => none
    | some (lastUrl, lastTitle) =>
      if lastTitle = boundaryTitle ∨ lastUrl ∈ seen then some acc'.reverse
      else walkPages rest seen acc'

/-- What `get_article(url)` delivers to `parse_article`: the page's own title
and the body, the latter as its pattern-match outcomes. -/
structure FetchedArticle where
  title : List Char
  raw : BodyMatches
  neg : BodyMatches

inductive RunErr
  | discovery
  | parse (e : ParseErr)
  /-- `DataEntry.create` violated a unique constraint (`IntegrityError`). -/
  | integrity
deriving DecidableEq

/-- `DataEntry.create(**data)`: inserts a fresh row; the sqlite unique
constraints on `date` and `article_url` make it raise on a duplicate. -/
def create (db : List DataEntry) (e : DataEntry) :
    Except Unit (List DataEntry) :=
  if db.any (fun x => x.date == e.date || x.article_url == e.article_url)
  then .error ()
  else .ok (db ++ [e])

/-- The row scraper.py `main` inserts for one processed article. -/
def mkEntry (url : String) (art : FetchedArticle) (p : Parsed) : DataEntry :=
  { date := p.date, fields := p.data,
    article_url := url, article_title := art.title }

/-- The per-article loop of scraper.py `main`: skip recorded urls (the
`recorded_urls` set is computed once, before the loop), otherwise fetch,
parse, and `create`.  Returns the final store and every diagnostic emitted. -/
def mainLoop (content : String → FetchedArticle) (recorded : List String) :
    List DataEntry → List (String × String) →
    Except RunErr (List DataEntry × List (Date × Field))
  | db, [] => .ok (db, [])
  | db, (url, _) :: rest =>
    if url ∈ recorded then mainLoop content recorded db rest
    else
      let art := content url
      match parse_article art.title art.raw art.neg with
      | .error pe => .error (.parse pe)
      | .ok p =>
        match create db (mkEntry url art p) with
        | .error _ => .error .integrity
        | .ok db' =>
          match mainLoop content recorded db' rest with
          | .error er => .error er
          | .ok (dbf, dsf) => .ok (dbf, p.diags ++ dsf)

/-- scraper.py `main` up to the store mutations: compute the recorded urls,
discover the article list, process it.  The trailing csv export is a pure
projection of the store and is out of the core (spec §1, §3). -/
def run_main (pages : List (List (String × String)))
    (content : String → FetchedArticle) (db : List DataEntry) :
    Except RunErr (List DataEntry × List (Date × Field)) :=
  match walkPages pages (urls db) [] with
  | none => .error .discovery
  | some arts => mainLoop content (urls db) db arts

/-! ## hb_scraper.py: the provincial parser and the cross-source reconciler -/

namespace Hb

/-- The keys of the `patterns` dict of hb_scraper.py, in iteration order. -/
inductive Cat
  | hb_new_confirmed
  | hb_new_death
  | hb_new_cured
  | hb_remaining_severe
  | hb_remaining_critical
  | hb_cured
  | hb_death
  | hb_total_confirmed
  | hb_remaining_suspected
deriving DecidableEq

def catOrder : List Cat :=
  [.hb_new_confirmed, .hb_new_death, .hb_new_cured, .hb_remaining_severe,
   .hb_remaining_critical, .hb_cured, .hb_death, .hb_total_confirmed,
   .hb_remaining_suspected]

/-- The stored column a category writes to; `hb_remaining_critical` is not a
column (it is folded into `hb_remaining_severe` before the record is built). -/
def catField : Cat → Option Field
  | .hb_new_confirmed => some .hb_new_confirmed
  | .hb_new_death => some .hb_new_death
  | .hb_new_cured => some .hb_new_cured
  | .hb_remaining_severe => some .hb_remaining_severe
  | .hb_remaining_critical => none
  | .hb_cured => some .hb_cured
  | .hb_death => some .hb_death
  | .hb_total_confirmed => some .hb_total_confirmed
  | .hb_remaining_suspected => some .hb_remaining_suspected

/-- The `introduced` dict of hb_scraper.py. -/
def hbIntroduced : Cat → Option (List Char)
  | .hb_new_cured => some ("01-29".data)
  | .hb_remaining_suspected => some ("02-08".data)
  | _ => none

/-- A provincial body text as the extraction loop observes it: the capture of
`re.search` for each category's pattern. -/
def HbMatches := Cat → Option Nat

inductive HbErr
  /-- `date_pattern.match(body)` returned `None` and `m["month"]` raised. -/
  | dateNoMatch
  /-- `datetime.date(2020, month, day)` raised `ValueError`. -/
  | badDate
  /-- the post-loop severe/critical fold raised `KeyError`. -/
  | keyError
deriving DecidableEq

def hbSilent (c : Cat) (dateStr : List Char) : Bool :=
  match hbIntroduced c with
  | some thr => strLt dateStr thr
  | none => false

/-- A successful provincial `parse_article`: the record fields the final
`data` dict carries (a `none` value means the key is absent from the dict),
plus the loop's no-match diagnostics. -/
structure HbParsed where
  date : Date
  dateStr : List Char
  vals : Field → Option Int
  diags : List (Date × Cat)

/-- Lines 61–68 of hb_scraper.py: the final `hb_remaining_severe` value.
With a critical capture the severe entry is incremented (raising `KeyError`
if the severe pattern found no match); without one the severe entry is
deleted (also raising `KeyError` if it never matched). -/
def severeFold (raw : HbMatches) : Except HbErr (Option Int) :=
  match raw .hb_remaining_critical with
  | some c =>
    match raw .hb_remaining_severe with
    | some s => .ok (some (Int.ofNat s + Int.ofNat c))
    | none => .error .keyError
  | none =>
    match raw .hb_remaining_severe with
    | some _ => .ok none
    | none => .error .keyError

/-- Lines 69–72: derive `hb_remaining_confirmed` when the three cumulative
counts were all captured. -/
def hbRemainingConfirmedDerived (raw : HbMatches) : Option Int :=
  match raw .hb_total_confirmed, raw .hb_cured, raw .hb_death with
  | some t, some cu, some de =>
    some (Int.ofNat t - Int.ofNat cu - Int.ofNat de)
  | _, _, _ => none

/-- The value the final `data` dict holds for a stored column. -/
def hbVals (raw : HbMatches) (sev : Option Int) : Field → Option Int
  | .hb_new_confirmed => (raw .hb_new_confirmed).map Int.ofNat
  | .hb_new_death => (raw .hb_new_death).map Int.ofNat
  | .hb_new_cured => (raw .hb_new_cured).map Int.ofNat
  | .hb_remaining_severe => sev
  | .hb_cured => (raw .hb_cured).map Int.ofNat
  | .hb_death => (raw .hb_death).map Int.ofNat
  | .hb_total_confirmed => (raw .hb_total_confirmed).map Int.ofNat
  | .hb_remaining_suspected => (raw .hb_remaining_suspected).map Int.ofNat
  | .hb_remaining_confirmed => hbRemainingConfirmedDerived raw
  | _ => none

/-- `parse_article(body)` of hb_scraper.py.  The date header outcome is the
`date_pattern.match` capture `(month, day)`, or `none` for no match. -/
def parse_article (dm : Option (Nat × Nat)) (raw : HbMatches) :
    Except HbErr HbParsed :=
  match dm with
  | none => .error .dateNoMatch
  | some (month, day) =>
    match mkDate 2020 month day with
    | none => .error .badDate
    | some dt =>
      let ds := dateStrOf month day
      match severeFold raw with
      | .error e => .error e
      | .ok sev =>
        .ok { date := dt
              dateStr := ds
              vals := hbVals raw sev
              diags :=
                (catOrder.filter (fun c =>
                  (raw c).isNone && !hbSilent c ds)).map (fun c => (dt, c)) }

/-- The data reported alongside a fatal discrepancy: date, indicator, and the
two conflicting values (`logger.critical(...)` followed by `sys.exit(1)`). -/
structure Contra where
  date : Date
  key : Cat
  existing : Int
  newVal : Int
deriving DecidableEq

/-- The comparison loop of hb_scraper.py `main`: for each pattern key other
than `hb_remaining_critical`, compare the freshly parsed value with the
stored one and halt on the first disagreement. -/
def compareLoop (e : DataEntry) (vals : Field → Option Int) (d : Date) :
    List Cat → Option Contra
  | [] => none
  | c :: rest =>
    if c = Cat.hb_remaining_critical then compareLoop e vals d rest
    else
      match catField c with
      | none => compareLoop e vals d rest
      | some f =>
        match e.fields f, vals f with
        | some ex, some v =>
          if ex = v then compareLoop e vals d rest else some ⟨d, c, ex, v⟩
        | _, _ => compareLoop e vals d rest

/-- The merge of an update dict into a stored row
(`DataEntry.update(**data).where(DataEntry.date == date)`): every key present
in the dict overwrites the column, every absent key leaves it unchanged. -/
def mergeEntry (e : DataEntry) (vals : Field → Option Int) : DataEntry :=
  { e with fields := fun f =>
      match vals f with
      | some v => some v
      | none => e.fields f }

def hbUpdate (db : List DataEntry) (d : Date) (vals : Field → Option Int) :
    List DataEntry :=
  db.map (fun e => if e.date = d then mergeEntry e vals else e)

inductive StepErr
  | parse (e : HbErr)
  /-- `DataEntry.get(date=date)` raised `DoesNotExist`. -/
  | doesNotExist
  /-- the fatal cross-source discrepancy (`sys.exit(1)`). -/
  | contradiction (c : Contra)
deriving DecidableEq

/-- One iteration of hb_scraper.py `main`: parse, look up the same-date
record, run the comparison loop, then merge. -/
def hb_step (db : List DataEntry) (dm : Option (Nat × Nat)) (raw : HbMatches) :
    Except StepErr (List DataEntry) :=
  match parse_article dm raw with
  | .error pe => .error (.parse pe)
  | .ok p =>
    match dbGet db p.date with
    | none => .error .doesNotExist
    | some e =>
      match compareLoop e p.vals p.date catOrder with
      | some c => .error (.contradiction c)
      | none => .ok (hbUpdate db p.date p.vals)

end Hb

/-! ## The persist operations of the two pipelines (for the uniqueness claim) -/

/-- A persist operation as issued by either pipeline: the national pipeline
inserts a fresh row (`DataEntry.create`), the provincial pipeline looks up
the same-date row, compares, and merges. -/
inductive PersistOp
  | nat (e : DataEntry)
  | hb (d : Date) (vals : Field → Option Int)

def applyOp (db : List DataEntry) : PersistOp → Except Unit (List DataEntry)
  | .nat e => create db e
  | .hb d vals =>
    match dbGet db d with
    | none => .error ()
    | some e =>
      match Hb.compareLoop e vals d Hb.catOrder with
      | some _ => .error ()
      | none => .ok (Hb.hbUpdate db d vals)

def applySeq (db : List DataEntry) : List PersistOp →
    Except Unit (List DataEntry)
  | [] => .ok db
  | op :: rest =>
    match applyOp db op with
    | .error u => .error u
    | .ok db' => applySeq db' rest

/-- No two stored records share a date. -/
def datesUnique (db : List DataEntry) : Prop :=
  db.Pairwise (fun a b => a.date ≠ b.date)

/-- Boolean form of "the stored record and the freshly parsed data disagree on
the column of category `c`": both concrete and different.  `false` for
`hb_remaining_critical`, which has no column and is skipped by the loop. -/
def conflictB (e : DataEntry) (vals : Field → Option Int) (c : Hb.Cat) : Bool :=
  match Hb.catField c with
  | none => false
  | some f =>
    match e.fields f, vals f with
    | some ex, some v => ex != v
    | _, _ => false

/-! ## Concrete instances used by the counterexamples and witnesses -/

/-- A store entry whose `cured` and `death` are present while
`total_confirmed` and `remaining_confirmed` are absent: the shape on which
`remaining_confirmed_calc` computes `None - 50`. -/
def entryCrash : DataEntry :=
  { date := ⟨2020, 2, 3⟩
    fields := fun f =>
      match f with
      | .cured => some 50
      | .death => some 40
      | .hb_remaining_confirmed => some 5
      | _ => none
    article_url := "u-crash"
    article_title := [] }

/-- An entry where the `remaining_confirmed` fallback succeeds:
`100 - 30 - 20 = 50`, with a provincial count of `10`. -/
def entryCalcDemo : DataEntry :=
  { date := ⟨2020, 2, 7⟩
    fields := fun f =>
      match f with
      | .total_confirmed => some 100
      | .cured => some 30
      | .death => some 20
      | .hb_remaining_confirmed => some 10
      | _ => none
    article_url := "u-demo"
    article_title := [] }

/-- Provincial body-match outcomes where every pattern matched
(total 5806, severe 10, critical 2, cured 50, death 40, ...). -/
def rawHbFull : Hb.HbMatches := fun c =>
  match c with
  | .hb_new_confirmed => some 80
  | .hb_new_death => some 70
  | .hb_new_cured => some 60
  | .hb_remaining_severe => some 10
  | .hb_remaining_critical => some 2
  | .hb_cured => some 50
  | .hb_death => some 40
  | .hb_total_confirmed => some 5806
  | .hb_remaining_suspected => some 30

/-- Like `rawHbFull` but the standalone-severe pattern found no match. -/
def rawNoSevere : Hb.HbMatches := fun c =>
  match c with
  | .hb_remaining_severe => none
  | c => rawHbFull c

/-- A second scrape of the same bulletin shape reporting `5807` instead. -/
def raw5807 : Hb.HbMatches := fun c =>
  if c == Hb.Cat.hb_total_confirmed then some 5807 else rawHbFull c

def hbJunk : Hb.HbParsed :=
  { date := ⟨0, 0, 0⟩, dateStr := [], vals := fun _ => none, diags := [] }

/-- The parse of `rawHbFull` for 2020-02-05 (extracted from the parser's
result; the fallback branch is never taken). -/
def p5806 : Hb.HbParsed :=
  match Hb.parse_article (some (2, 5)) rawHbFull with
  | .ok p => p
  | .error _ => hbJunk

def p5807 : Hb.HbParsed :=
  match Hb.parse_article (some (2, 5)) raw5807 with
  | .ok p => p
  | .error _ => hbJunk

/-- The national record for 2020-02-05 before any provincial scrape:
every provincial column absent. -/
def entryFeb5 : DataEntry :=
  { date := ⟨2020, 2, 5⟩
    fields := fun _ => none
    article_url := "nhc-0205"
    article_title := [] }

def dbFeb5 : List DataEntry := [entryFeb5]

/-- The store after reconciling the 5806 scrape into `dbFeb5`. -/
def dbFeb5' : List DataEntry := Hb.hbUpdate dbFeb5 p5806.date p5806.vals

def eFeb5' : DataEntry := Hb.mergeEntry entryFeb5 p5806.vals

/-- A stored record that already holds `hb_remaining_confirmed = 100` while
every pattern-compared provincial column is absent. -/
def entryStored100 : DataEntry :=
  { date := ⟨2020, 2, 5⟩
    fields := fun f =>
      match f with
      | .hb_remaining_confirmed => some 100
      | _ => none
    article_url := "nhc-0205-b"
    article_title := [] }

def dbStored100 : List DataEntry := [entryStored100]

/-- Provincial matches from which the parser derives
`hb_remaining_confirmed = 200 - 50 - 51 = 99`. -/
def rawDerived99 : Hb.HbMatches := fun c =>
  match c with
  | .hb_new_confirmed => some 80
  | .hb_new_death => some 70
  | .hb_new_cured => some 60
  | .hb_remaining_severe => some 10
  | .hb_remaining_critical => some 2
  | .hb_cured => some 50
  | .hb_death => some 51
  | .hb_total_confirmed => some 200
  | .hb_remaining_suspected => some 30

def pDerived99 : Hb.HbParsed :=
  match Hb.parse_article (some (2, 5)) rawDerived99 with
  | .ok p => p
  | .error _ => hbJunk

def dbStored100' : List DataEntry :=
  Hb.hbUpdate dbStored100 pDerived99.date pDerived99.vals

/-- A national-pipeline insert for a date already stored (a second article
resolving to 2020-02-05, different url). -/
def entryFeb5Dup : DataEntry :=
  { date := ⟨2020, 2, 5⟩
    fields := fun _ => none
    article_url := "nhc-0205-dup"
    article_title := [] }

/-- An index title that does not match the expected date shape. -/
def badTitle : String := "关于印发新型冠状病毒肺炎诊疗方案的通知"

/-- An article whose body matches every national pattern and whose page title
is the boundary title. -/
def contentAll : String → FetchedArticle :=
  fun _ => ⟨boundaryTitle.data, fun _ => some 1, fun _ => none⟩

/-- One index page carrying a malformed-title document and a well-formed one. -/
def pagesBad : List (List (String × String)) :=
  [[("bad-url", badTitle), ("good-url", boundaryTitle)]]

/-- The store produced by running the pipeline on `pagesBad` from empty. -/
def dbC8 : List DataEntry :=
  match run_main pagesBad contentAll [] with
  | .ok (db, _) => db
  | .error _ => []

def pages9 : List (List (String × String)) := [[("w-url", boundaryTitle)]]

def c9db : List DataEntry :=
  match run_main pages9 contentAll [] with
  | .ok (db, _) => db
  | .error _ => []

def c9ds : List (Date × Field) :=
  match run_main pages9 contentAll [] with
  | .ok (_, ds) => ds
  | .error _ => []

/-- Body-match outcomes where no national pattern matched at all. -/
def rawNone : BodyMatches := fun _ => none

def parsedJunk : Parsed :=
  { date := ⟨0, 0, 0⟩, dateStr := [], data := fun _ => none, diags := [] }

/-- The national parse of an all-miss body under the 02-11 title. -/
def pC6 : Parsed :=
  match parse_article "2月12日新型冠状病毒肺炎疫情情况".data rawNone rawNone with
  | .ok p => p
  | .error _ => parsedJunk

/-! # Theorems -/

/-! ## Date resolution (shared lemmas) -/

theorem resolve_title_until (title : List Char) (g : TitleGroups) (dt : Date)
    (h : title_pattern_match title = some g) (hu : g.untilMark = true)
    (hv : mkDate 2020 g.month g.day = some dt) :
    resolve_title_date title = .ok (dt, dateStrOf g.month g.day) := by
  unfold resolve_title_date
  rw [h]
  simp [hu, hv]

theorem resolve_title_noUntil (title : List Char) (g : TitleGroups) (dt : Date)
    (h : title_pattern_match title = some g) (hu : g.untilMark = false)
    (hv : mkDate 2020 g.month (g.day - 1) = some dt) :
    resolve_title_date title = .ok (dt, dateStrOf g.month (g.day - 1)) := by
  unfold resolve_title_date
  rw [h]
  simp [hu, hv]

theorem resolve_title_day_one (title : List Char) (g : TitleGroups)
    (h : title_pattern_match title = some g) (hu : g.untilMark = false)
    (hd : g.day = 1) :
    resolve_title_date title = .error .badDate := by
  unfold resolve_title_date
  rw [h]
  simp [hu, hd, mkDate]

/-- C4 (counterexample): the title `3月1日...`, which has no as-of marker and
day number 1, matches the expected shape, yet the resolver raises a
`ValueError` (`datetime.date(2020, 3, 0)`) instead of producing
2020-02-29 as "(month, day) minus one calendar day" requires. -/
theorem c4_date_cx :
    title_pattern_match "3月1日新型冠状病毒肺炎疫情情况".data =
      some ⟨false, 3, 1⟩ ∧
    resolve_title_date "3月1日新型冠状病毒肺炎疫情情况".data =
      .error .badDate := ⟨rfl, rfl⟩

/-- C4 (amended): for a matching title, the as-of marker yields the literal
(month, day) when that is a valid 2020 date; without the marker the resolver
subtracts one from the day *number* — yielding (month, day−1) when day ≥ 2
and that is a valid 2020 date, and raising an invalid-date error when
day = 1 (no cross-month rollover).  The two example titles resolve to
2020-02-11 and 2020-02-12 as claimed. -/
theorem c4_date_amended (title : List Char) (g : TitleGroups)
    (h : title_pattern_match title = some g) :
    (g.untilMark = true →
      ∀ dt, mkDate 2020 g.month g.day = some dt →
        resolve_title_date title = .ok (dt, dateStrOf g.month g.day)) ∧
    (g.untilMark = false → 2 ≤ g.day →
      ∀ dt, mkDate 2020 g.month (g.day - 1) = some dt →
        resolve_title_date title = .ok (dt, dateStrOf g.month (g.day - 1))) ∧
    (g.untilMark = false → g.day = 1 →
      resolve_title_date title = .error .badDate) := by
  refine ⟨?_, ?_, ?_⟩
  · intro hu dt hv
    exact resolve_title_until title g dt h hu hv
  · intro hu _ dt hv
    exact resolve_title_noUntil title g dt h hu hv
  · intro hu hd
    exact resolve_title_day_one title g h hu hd

/-- Witness for C4: the two example titles of the claim. -/
theorem c4_date_witness :
    resolve_title_date "截至2月12日新型冠状病毒肺炎疫情情况".data =
      .ok (⟨2020, 2, 12⟩, "02-12".data) ∧
    resolve_title_date "2月12日新型冠状病毒肺炎疫情情况".data =
      .ok (⟨2020, 2, 11⟩, "02-11".data) := by
  constructor
  · exact (c4_date_amended ("截至2月12日新型冠状病毒肺炎疫情情况".data)
      ⟨true, 2, 12⟩ rfl).1 rfl ⟨2020, 2, 12⟩ rfl
  · exact (c4_date_amended ("2月12日新型冠状病毒肺炎疫情情况".data)
      ⟨false, 2, 12⟩ rfl).2.1 rfl (by norm_num) ⟨2020, 2, 11⟩ rfl

/-- C7 (counterexample): the title `2月1日...` (no as-of marker, day 1)
matches the shape, but instead of rolling over to 2020-01-31 the resolver
attempts `datetime.date(2020, 2, 0)` and raises. -/
theorem c7_rollover_cx :
    title_pattern_match "2月1日新型冠状病毒肺炎疫情情况".data =
      some ⟨false, 2, 1⟩ ∧
    resolve_title_date "2月1日新型冠状病毒肺炎疫情情况".data =
      .error .badDate := ⟨rfl, rfl⟩

/-- C7 (amended): for every matching title without the as-of marker whose day
number is 1, the resolver raises an invalid-date error — the day subtraction
is plain integer arithmetic with no month rollover (the source comments that
it is safe "since we know all instances"). -/
theorem c7_rollover_amended (title : List Char) (g : TitleGroups)
    (h : title_pattern_match title = some g) (hu : g.untilMark = false)
    (hd : g.day = 1) :
    resolve_title_date title = .error .badDate :=
  resolve_title_day_one title g h hu hd

/-- Witness for C7 at the title `4月1日...`. -/
theorem c7_rollover_witness :
    resolve_title_date "4月1日新型冠状病毒肺炎疫情情况".data =
      .error .badDate :=
  c7_rollover_amended ("4月1日新型冠状病毒肺炎疫情情况".data)
    ⟨false, 4, 1⟩ rfl rfl rfl

/-! ## Derived fields: `remaining_confirmed_calc` and `__getattr__` -/

theorem remaining_confirmed_calc_ok (e : DataEntry)
    (h : ¬ remainingConfirmedCrash e) :
    remaining_confirmed_calc e = .ok (spec_remaining_confirmed_calc e) := by
  unfold remaining_confirmed_calc spec_remaining_confirmed_calc
  unfold remainingConfirmedCrash at h
  cases hrc : e.fields .remaining_confirmed with
  | some v => rfl
  | none =>
    cases hc : e.fields .cured with
    | none =>
      cases ht : e.fields .total_confirmed <;> rfl
    | some c =>
      cases hd : e.fields .death with
      | none =>
        cases ht : e.fields .total_confirmed <;> rfl
      | some d =>
        cases ht : e.fields .total_confirmed with
        | some t => rfl
        | none => exact absurd ⟨hrc, by simp [hc], by simp [hd], ht⟩ h

/-- C5 (counterexample): on a record with `cured = 50`, `death = 40`,
`total_confirmed` absent and `remaining_confirmed` absent, the claim requires
the derived view to be absent, but `remaining_confirmed_calc` raises
`TypeError` (`None - 50`). -/
theorem c5_remaining_cx :
    entryCrash.fields .remaining_confirmed = none ∧
    (entryCrash.fields .cured).isSome = true ∧
    (entryCrash.fields .death).isSome = true ∧
    entryCrash.fields .total_confirmed = none ∧
    remaining_confirmed_calc entryCrash = .error () ∧
    spec_remaining_confirmed_calc entryCrash = none :=
  ⟨rfl, rfl, rfl, rfl, rfl, rfl⟩

/-- C5 (amended): except on the crash shape (direct value absent, `cured` and
`death` present, `total_confirmed` absent — where the property raises
`TypeError`), the derived view equals the spec's: the direct scrape when
present, else `total_confirmed − cured − death` when all three operands are
present, else absent. -/
theorem c5_remaining_amended (e : DataEntry)
    (h : ¬ remainingConfirmedCrash e) :
    remaining_confirmed_calc e = .ok (spec_remaining_confirmed_calc e) :=
  remaining_confirmed_calc_ok e h

/-- Witness for C5: the fallback computes `100 − 30 − 20 = 50`. -/
theorem c5_remaining_witness :
    remaining_confirmed_calc entryCalcDemo = .ok (some 50) :=
  c5_remaining_amended entryCalcDemo (by decide)

theorem hb_new_severe_calc_eq_spec (db : List DataEntry) (e : DataEntry) :
    hb_new_severe_calc db e = spec_hb_new_severe_calc db e := by
  unfold hb_new_severe_calc spec_hb_new_severe_calc
  cases e.fields .hb_new_severe with
  | some v => rfl
  | none =>
    cases e.fields .hb_remaining_severe with
    | none => rfl
    | some cur =>
      cases dbGet db (prevDay e.date) with
      | none => rfl
      | some prev =>
        cases h2 : prev.fields .hb_remaining_severe <;> simp [h2]

theorem resolveOperand_ok (db : List DataEntry) (e : DataEntry) (f : Field)
    (h : f = Field.remaining_confirmed → ¬ remainingConfirmedCrash e) :
    resolveOperand db e f = .ok (spec_resolve db e f) := by
  unfold resolveOperand spec_resolve
  cases hd : e.fields f with
  | some v => rfl
  | none =>
    cases f with
    | remaining_confirmed =>
      simp only [getattrCalc]
      rw [remaining_confirmed_calc_ok e (h rfl)]
    | hb_new_severe =>
      simp only [getattrCalc]
      rw [hb_new_severe_calc_eq_spec]
    | _ => rfl

/-- C2 (counterexample): reading `not_hb_remaining_confirmed` on a record
whose national operand hits the `remaining_confirmed_calc` crash shape
raises `TypeError` instead of being absent, although the provincial operand
is concrete (5): the claim's "concrete exactly when both operands resolve,
absent otherwise" does not hold. -/
theorem c2_not_hb_cx :
    not_hb [] entryCrash .remaining_confirmed = .error () ∧
    spec_not_hb [] entryCrash .remaining_confirmed = none ∧
    entryCrash.fields .hb_remaining_confirmed = some 5 :=
  ⟨rfl, rfl, rfl⟩

/-- C2 (amended): except when the national operand of
`not_hb_remaining_confirmed` hits the `remaining_confirmed_calc` crash shape
(where the read raises `TypeError`), every `not_hb_Q` read equals the spec's
view: national minus provincial, each operand falling back to its own derived
value, concrete exactly when both operands resolve and absent otherwise. -/
theorem c2_not_hb_amended (db : List DataEntry) (e : DataEntry) (q : Quantity)
    (h : ¬ (q = Quantity.remaining_confirmed ∧ remainingConfirmedCrash e)) :
    not_hb db e q = .ok (spec_not_hb db e q) := by
  have hn : resolveOperand db e (natField q) = .ok (spec_resolve db e (natField q)) := by
    refine resolveOperand_ok db e (natField q) (fun hf => fun hc => h ⟨?_, hc⟩)
    cases q <;> simp [natField] at hf ⊢
  have hh : resolveOperand db e (hbField q) = .ok (spec_resolve db e (hbField q)) := by
    refine resolveOperand_ok db e (hbField q) (fun hf => absurd hf ?_)
    cases q <;> simp [hbField]
  unfold not_hb spec_not_hb
  rw [hn, hh]
  cases spec_resolve db e (natField q) <;>
    cases spec_resolve db e (hbField q) <;> rfl

/-- Witness for C2: `not_hb_remaining_confirmed` with the national operand
resolved through its fallback (`100 − 30 − 20 = 50`) and the provincial
operand direct (`10`): `50 − 10 = 40`. -/
theorem c2_not_hb_witness :
    not_hb [] entryCalcDemo .remaining_confirmed = .ok (some 40) :=
  c2_not_hb_amended [] entryCalcDemo .remaining_confirmed (by decide)

/-! ## The provincial severe/critical fold -/

/-- C10: when the provincial parser returns normally, `hb_remaining_severe`
is present in its output exactly when both the standalone-severe and the
critical-severe pattern matched, and then holds their sum (a severe match
without a critical match is deleted); and when the standalone-severe pattern
found no match at all (with a matching, valid date header, so extraction is
reached) the parser raises `KeyError` instead of returning a record with the
field absent. -/
theorem c10_hb_severe :
    (∀ dm raw p, Hb.parse_article dm raw = .ok p →
      ((p.vals Field.hb_remaining_severe).isSome = true ↔
        ((raw Hb.Cat.hb_remaining_severe).isSome = true ∧
         (raw Hb.Cat.hb_remaining_critical).isSome = true)) ∧
      (∀ a b, raw Hb.Cat.hb_remaining_severe = some a →
        raw Hb.Cat.hb_remaining_critical = some b →
        p.vals Field.hb_remaining_severe = some (Int.ofNat a + Int.ofNat b))) ∧
    (∀ m d dt raw, mkDate 2020 m d = some dt →
      raw Hb.Cat.hb_remaining_severe = none →
      Hb.parse_article (some (m, d)) raw = .error .keyError) := by
  constructor
  · intro dm raw p hp
    match dm with
    | none => exact absurd hp (by simp [Hb.parse_article])
    | some (m, d) =>
      unfold Hb.parse_article at hp
      dsimp only at hp
      cases hmk : mkDate 2020 m d with
      | none => rw [hmk] at hp; exact absurd hp (by simp)
      | some dt =>
        rw [hmk] at hp
        cases hsf : Hb.severeFold raw with
        | error e => rw [hsf] at hp; exact absurd hp (by simp)
        | ok sev =>
          rw [hsf] at hp
          simp only [Except.ok.injEq] at hp
          have hv : p.vals Field.hb_remaining_severe = sev := by
            rw [← hp]
            rfl
          unfold Hb.severeFold at hsf
          constructor
          · rw [hv]
            cases hc : raw Hb.Cat.hb_remaining_critical with
            | some c =>
              rw [hc] at hsf
              cases hs : raw Hb.Cat.hb_remaining_severe with
              | some s => rw [hs] at hsf; simp at hsf; simp [← hsf, hs, hc]
              | none => rw [hs] at hsf; exact absurd hsf (by simp)
            | none =>
              rw [hc] at hsf
              cases hs : raw Hb.Cat.hb_remaining_severe with
              | some s => rw [hs] at hsf; simp at hsf; simp [← hsf, hs, hc]
              | none => rw [hs] at hsf; exact absurd hsf (by simp)
          · intro a b hs hc
            rw [hs, hc] at hsf
            simp at hsf
            rw [hv, ← hsf]
            rfl
  · intro m d dt raw hmk hs
    unfold Hb.parse_article
    dsimp only
    rw [hmk]
    unfold Hb.severeFold
    rw [hs]
    cases raw Hb.Cat.hb_remaining_critical <;> rfl

/-- Witness for C10: with severe 10 and critical 2 the returned record holds
12; with the standalone-severe pattern unmatched the parser raises
`KeyError`. -/
theorem c10_hb_severe_witness :
    (match Hb.parse_article (some (2, 5)) rawHbFull with
      | .ok p => p
      | .error _ => hbJunk).vals Field.hb_remaining_severe = some 12 ∧
    Hb.parse_article (some (2, 10)) rawNoSevere = .error .keyError := by
  constructor
  · exact (c10_hb_severe.1 (some (2, 5)) rawHbFull _ rfl).2 10 2 rfl rfl
  · exact c10_hb_severe.2 2 10 ⟨2020, 2, 10⟩ rawNoSevere rfl rfl

/-! ## Threshold-gated diagnostics (shared lemmas) -/

theorem mem_natOrder (f : Field) : f ∈ natOrder := by
  cases f <;> simp [natOrder]

theorem mem_catOrder (c : Hb.Cat) : c ∈ Hb.catOrder := by
  cases c <;> simp [Hb.catOrder]

theorem parse_article_ok_inv (title : List Char) (raw neg : BodyMatches)
    (p : Parsed) (hp : parse_article title raw neg = .ok p) :
    ∃ dt ds, resolve_title_date title = .ok (dt, ds) ∧
      p = { date := dt, dateStr := ds,
            data := fun f => extractValue raw neg f,
            diags := (natOrder.filter (fun f =>
              (extractValue raw neg f).isNone &&
                !silentBeforeThreshold f ds)).map (fun f => (dt, f)) } := by
  unfold parse_article at hp
  cases hr : resolve_title_date title with
  | error e => rw [hr] at hp; exact absurd hp (by simp)
  | ok pr =>
    obtain ⟨dt, ds⟩ := pr
    rw [hr] at hp
    simp only [Except.ok.injEq] at hp
    exact ⟨dt, ds, rfl, hp.symm⟩

theorem severeFold_error_of_none (raw : Hb.HbMatches)
    (hs : raw Hb.Cat.hb_remaining_severe = none) :
    Hb.severeFold raw = .error .keyError := by
  unfold Hb.severeFold
  rw [hs]
  cases raw Hb.Cat.hb_remaining_critical <;> rfl

theorem hb_parse_ok_inv (dm : Option (Nat × Nat)) (raw : Hb.HbMatches)
    (q : Hb.HbParsed) (hq : Hb.parse_article dm raw = .ok q) :
    ∃ m d dt sev, dm = some (m, d) ∧ mkDate 2020 m d = some dt ∧
      Hb.severeFold raw = .ok sev ∧
      q = { date := dt, dateStr := dateStrOf m d,
            vals := Hb.hbVals raw sev,
            diags := (Hb.catOrder.filter (fun c =>
              (raw c).isNone &&
                !Hb.hbSilent c (dateStrOf m d))).map (fun c => (dt, c)) } := by
  match dm with
  | none => exact absurd hq (by simp [Hb.parse_article])
  | some (m, d) =>
    unfold Hb.parse_article at hq
    dsimp only at hq
    cases hmk : mkDate 2020 m d with
    | none => rw [hmk] at hq; exact absurd hq (by simp)
    | some dt =>
      rw [hmk] at hq
      cases hsf : Hb.severeFold raw with
      | error e => rw [hsf] at hq; exact absurd hq (by simp)
      | ok sev =>
        rw [hsf] at hq
        simp only [Except.ok.injEq] at hq
        exact ⟨m, d, dt, sev, rfl, hmk, rfl, hq.symm⟩

/-- C6 (counterexample): for the indicator `hb_remaining_severe` (no
threshold) and a provincial body on which its pattern finds no match, the
claim requires a non-fatal diagnostic with the indicator left absent and
processing continuing; instead the parser aborts with `KeyError`, so no
record with the field absent is ever produced. -/
theorem c6_threshold_cx :
    rawNoSevere Hb.Cat.hb_remaining_severe = none ∧
    Hb.hbIntroduced Hb.Cat.hb_remaining_severe = none ∧
    Hb.parse_article (some (2, 10)) rawNoSevere = .error .keyError :=
  ⟨rfl, rfl, rfl⟩

/-- C6 (amended): the claimed behaviour — silence before the indicator's
introduction threshold, a critical diagnostic naming date and indicator on or
after it (or with no threshold), the indicator left absent, extraction
continuing — holds for the national extractor for every indicator, and for
the provincial extractor for every stored category, *provided the provincial
parse returns at all* (a missing standalone-severe match aborts it with
`KeyError` after logging, see the counterexample). -/
theorem c6_threshold_amended :
    (∀ title raw neg p f, parse_article title raw neg = .ok p →
      raw f = none → (hasNegativePattern f = true → neg f = none) →
      p.data f = none ∧
      ((p.date, f) ∈ p.diags ↔ silentBeforeThreshold f p.dateStr = false)) ∧
    (∀ dm raw q c f, Hb.parse_article dm raw = .ok q →
      Hb.catField c = some f → raw c = none →
      q.vals f = none ∧
      ((q.date, c) ∈ q.diags ↔ Hb.hbSilent c q.dateStr = false)) := by
  constructor
  · intro title raw neg p f hp hraw hneg
    obtain ⟨dt, ds, -, hpeq⟩ := parse_article_ok_inv title raw neg p hp
    subst hpeq
    have hval : extractValue raw neg f = none := by
      unfold extractValue
      rw [hraw]
      cases hnp : hasNegativePattern f with
      | true => simp [hneg hnp]
      | false => simp
    refine ⟨hval, ?_⟩
    simp only [List.mem_map, List.mem_filter, Prod.mk.injEq]
    constructor
    · rintro ⟨x, ⟨-, hpred⟩, -, hxf⟩
      subst hxf
      rw [hval] at hpred
      simpa using hpred
    · intro hsil
      exact ⟨f, ⟨mem_natOrder f, by simp [hval, hsil]⟩, trivial, rfl⟩
  · intro dm raw q c f hq hcf hraw
    obtain ⟨m, d, dt, sev, -, -, hsf, hqeq⟩ := hb_parse_ok_inv dm raw q hq
    subst hqeq
    have hval : Hb.hbVals raw sev f = none := by
      cases c with
      | hb_remaining_severe =>
        exfalso
        have : Hb.severeFold raw = .error .keyError :=
          severeFold_error_of_none raw hraw
        rw [this] at hsf
        exact absurd hsf (by simp)
      | hb_remaining_critical => exact absurd hcf (by simp [Hb.catField])
      | hb_new_confirmed =>
        obtain rfl : Field.hb_new_confirmed = f := by
          simpa [Hb.catField] using hcf
        simp [Hb.hbVals, hraw]
      | hb_new_death =>
        obtain rfl : Field.hb_new_death = f := by
          simpa [Hb.catField] using hcf
        simp [Hb.hbVals, hraw]
      | hb_new_cured =>
        obtain rfl : Field.hb_new_cured = f := by
          simpa [Hb.catField] using hcf
        simp [Hb.hbVals, hraw]
      | hb_cured =>
        obtain rfl : Field.hb_cured = f := by
          simpa [Hb.catField] using hcf
        simp [Hb.hbVals, hraw, Hb.hbRemainingConfirmedDerived]
      | hb_death =>
        obtain rfl : Field.hb_death = f := by
          simpa [Hb.catField] using hcf
        simp [Hb.hbVals, hraw, Hb.hbRemainingConfirmedDerived]
      | hb_total_confirmed =>
        obtain rfl : Field.hb_total_confirmed = f := by
          simpa [Hb.catField] using hcf
        simp [Hb.hbVals, hraw, Hb.hbRemainingConfirmedDerived]
      | hb_remaining_suspected =>
        obtain rfl : Field.hb_remaining_suspected = f := by
          simpa [Hb.catField] using hcf
        simp [Hb.hbVals, hraw]
    refine ⟨hval, ?_⟩
    simp only [List.mem_map, List.mem_filter, Prod.mk.injEq]
    constructor
    · rintro ⟨x, ⟨-, hpred⟩, -, hxc⟩
      subst hxc
      rw [hraw] at hpred
      simpa using hpred
    · intro hsil
      exact ⟨c, ⟨mem_catOrder c, by simp [hraw, hsil]⟩, trivial, rfl⟩

/-- Witness for C6 (national part): an all-miss body under the 02-11 title:
`remaining_confirmed` (threshold 02-06, passed) is absent and diagnosed,
while `hb_total_confirmed` (threshold 02-12, not yet reached) is absent and
silent. -/
theorem c6_threshold_witness :
    pC6.data Field.remaining_confirmed = none ∧
    (pC6.date, Field.remaining_confirmed) ∈ pC6.diags ∧
    (pC6.date, Field.hb_total_confirmed) ∉ pC6.diags := by
  have h1 := c6_threshold_amended.1 ("2月12日新型冠状病毒肺炎疫情情况".data)
    rawNone rawNone pC6 Field.remaining_confirmed rfl rfl (fun _ => rfl)
  have h2 := c6_threshold_amended.1 ("2月12日新型冠状病毒肺炎疫情情况".data)
    rawNone rawNone pC6 Field.hb_total_confirmed rfl rfl (fun h => by cases h)
  refine ⟨h1.1, h1.2.mpr (by decide), fun hm => ?_⟩
  have := h2.2.mp hm
  exact absurd this (by decide)

/-! ## The cross-source reconciler (shared lemmas) -/

theorem conflictB_critical (e : DataEntry) (vals : Field → Option Int) :
    conflictB e vals Hb.Cat.hb_remaining_critical = false := rfl

theorem compareLoop_none_iff (e : DataEntry) (vals : Field → Option Int)
    (d : Date) (l : List Hb.Cat) :
    Hb.compareLoop e vals d l = none ↔
      ∀ c ∈ l, conflictB e vals c = false := by
  induction l with
  | nil => simp [Hb.compareLoop]
  | cons c rest ih =>
    unfold Hb.compareLoop
    by_cases hc : c = Hb.Cat.hb_remaining_critical
    · subst hc
      simp [List.forall_mem_cons, ih, conflictB_critical]
    · rw [if_neg hc]
      cases hcf : Hb.catField c with
      | none => simp [List.forall_mem_cons, ih, conflictB, hcf]
      | some f =>
        cases hef : e.fields f with
        | none => simp [List.forall_mem_cons, ih, conflictB, hcf, hef]
        | some ex =>
          cases hvf : vals f with
          | none => simp [List.forall_mem_cons, ih, conflictB, hcf, hef, hvf]
          | some v =>
            by_cases hev : ex = v
            · subst hev
              simp [List.forall_mem_cons, ih, conflictB, hcf, hef, hvf]
            · simp [List.forall_mem_cons, ih, conflictB, hcf, hef, hvf, hev]

theorem compareLoop_some_spec (e : DataEntry) (vals : Field → Option Int)
    (d : Date) (l : List Hb.Cat) (ctr : Hb.Contra)
    (h : Hb.compareLoop e vals d l = some ctr) :
    ctr.date = d ∧ ctr.key ∈ l ∧
    ctr.key ≠ Hb.Cat.hb_remaining_critical ∧
    ∃ f, Hb.catField ctr.key = some f ∧
      e.fields f = some ctr.existing ∧ vals f = some ctr.newVal ∧
      ctr.existing ≠ ctr.newVal := by
  induction l with
  | nil => simp [Hb.compareLoop] at h
  | cons c rest ih =>
    unfold Hb.compareLoop at h
    by_cases hc : c = Hb.Cat.hb_remaining_critical
    · rw [if_pos hc] at h
      obtain ⟨h1, h2, h3, h4⟩ := ih h
      exact ⟨h1, List.mem_cons_of_mem c h2, h3, h4⟩
    · rw [if_neg hc] at h
      cases hcf : Hb.catField c with
      | none =>
        rw [hcf] at h
        obtain ⟨h1, h2, h3, h4⟩ := ih h
        exact ⟨h1, List.mem_cons_of_mem c h2, h3, h4⟩
      | some f =>
        rw [hcf] at h
        dsimp only at h
        cases hef : e.fields f with
        | none =>
          rw [hef] at h
          obtain ⟨h1, h2, h3, h4⟩ := ih h
          exact ⟨h1, List.mem_cons_of_mem c h2, h3, h4⟩
        | some ex =>
          rw [hef] at h
          cases hvf : vals f with
          | none =>
            rw [hvf] at h
            obtain ⟨h1, h2, h3, h4⟩ := ih h
            exact ⟨h1, List.mem_cons_of_mem c h2, h3, h4⟩
          | some v =>
            rw [hvf] at h
            dsimp only at h
            by_cases hev : ex = v
            · rw [if_pos hev] at h
              obtain ⟨h1, h2, h3, h4⟩ := ih h
              exact ⟨h1, List.mem_cons_of_mem c h2, h3, h4⟩
            · rw [if_neg hev] at h
              obtain rfl : Hb.Contra.mk d c ex v = ctr := by
                simpa using h
              exact ⟨rfl, List.mem_cons_self c rest, hc, f, hcf, hef, hvf, hev⟩

theorem mergeEntry_date (e : DataEntry) (vals : Field → Option Int) :
    (Hb.mergeEntry e vals).date = e.date := rfl

theorem dbGet_hbUpdate (db : List DataEntry) (d : Date)
    (vals : Field → Option Int) (e : DataEntry) (h : dbGet db d = some e) :
    dbGet (Hb.hbUpdate db d vals) d = some (Hb.mergeEntry e vals) := by
  induction db with
  | nil => simp [dbGet] at h
  | cons x rest ih =>
    unfold dbGet at h ⊢
    unfold Hb.hbUpdate
    rw [List.map_cons]
    by_cases hx : x.date = d
    · rw [List.find?_cons_of_pos _ (by simpa using hx)] at h
      obtain rfl : x = e := by simpa using h
      rw [if_pos hx]
      rw [List.find?_cons_of_pos _ (by simpa [mergeEntry_date] using hx)]
    · rw [List.find?_cons_of_neg _ (by simpa using hx)] at h
      rw [if_neg hx]
      rw [List.find?_cons_of_neg _ (by simpa using hx)]
      exact ih h

/-- C1 (counterexample): `hb_remaining_confirmed` is derived by the
provincial extraction (`200 − 50 − 51 = 99`) and present in its output, the
stored record holds `100` for it, and both values differ — yet the engine
does not halt: the reconcile step succeeds and silently overwrites the
stored `100` with `99`, because the comparison loop only covers the pattern
table's keys. -/
theorem c1_reconcile_cx :
    pDerived99.vals Field.hb_remaining_confirmed = some 99 ∧
    entryStored100.fields Field.hb_remaining_confirmed = some 100 ∧
    Hb.hb_step dbStored100 (some (2, 5)) rawDerived99 = .ok dbStored100' ∧
    (dbGet dbStored100' ⟨2020, 2, 5⟩).map
      (fun e => e.fields Field.hb_remaining_confirmed) = some (some 99) :=
  ⟨rfl, rfl, rfl, rfl⟩

/-- C1 (amended): for every *pattern-compared* indicator (the keys of the
provincial pattern table except the critical sub-count, which is folded into
severe before comparison), reconciliation behaves as claimed: when no
compared indicator has two differing concrete values, the step succeeds and
the stored record becomes the merge (absent stored values are adopted, equal
ones left unchanged); when some compared indicator has differing concrete
values, the batch halts with a contradiction carrying the date, a compared
indicator, and its two conflicting values.  (The derived
`hb_remaining_confirmed` is outside the comparison; see the
counterexample.) -/
theorem c1_reconcile_amended (db : List DataEntry) (dm : Option (Nat × Nat))
    (raw : Hb.HbMatches) (p : Hb.HbParsed) (e : DataEntry)
    (hp : Hb.parse_article dm raw = .ok p) (he : dbGet db p.date = some e) :
    ((∀ c ∈ Hb.catOrder, conflictB e p.vals c = false) →
      Hb.hb_step db dm raw = .ok (Hb.hbUpdate db p.date p.vals) ∧
      dbGet (Hb.hbUpdate db p.date p.vals) p.date =
        some (Hb.mergeEntry e p.vals) ∧
      (∀ f, (Hb.mergeEntry e p.vals).fields f =
        match p.vals f with
        | some v => some v
        | none => e.fields f)) ∧
    ((∃ c ∈ Hb.catOrder, conflictB e p.vals c = true) →
      ∃ ctr, Hb.hb_step db dm raw = .error (.contradiction ctr) ∧
        ctr.date = p.date ∧ ctr.key ∈ Hb.catOrder ∧
        ∃ f, Hb.catField ctr.key = some f ∧
          e.fields f = some ctr.existing ∧
          p.vals f = some ctr.newVal ∧ ctr.existing ≠ ctr.newVal) := by
  constructor
  · intro hnoc
    have hcl : Hb.compareLoop e p.vals p.date Hb.catOrder = none :=
      (compareLoop_none_iff e p.vals p.date Hb.catOrder).mpr hnoc
    refine ⟨?_, dbGet_hbUpdate db p.date p.vals e he, fun f => rfl⟩
    unfold Hb.hb_step
    simp [hp, he, hcl]
  · intro hconf
    cases hcl : Hb.compareLoop e p.vals p.date Hb.catOrder with
    | none =>
      obtain ⟨c, hcmem, hcb⟩ := hconf
      have := (compareLoop_none_iff e p.vals p.date Hb.catOrder).mp hcl c hcmem
      rw [this] at hcb
      exact absurd hcb (by simp)
    | some ctr =>
      obtain ⟨h1, h2, -, h4⟩ :=
        compareLoop_some_spec e p.vals p.date Hb.catOrder ctr hcl
      refine ⟨ctr, ?_, h1, h2, h4⟩
      unfold Hb.hb_step
      simp [hp, he, hcl]

/-- Witness for C1: the claim's scenario.  The 2020-02-05 record has
`hb_total_confirmed` absent; reconciling a provincial scrape of 5806 fills it
in; reconciling a later re-scrape of 5807 against the updated record halts
with a contradiction carrying the date, the indicator, 5806 and 5807. -/
theorem c1_reconcile_witness :
    Hb.hb_step dbFeb5 (some (2, 5)) rawHbFull = .ok dbFeb5' ∧
    (dbGet dbFeb5' ⟨2020, 2, 5⟩).map
      (fun e => e.fields Field.hb_total_confirmed) = some (some 5806) ∧
    (∃ ctr, Hb.hb_step dbFeb5' (some (2, 5)) raw5807 =
        .error (.contradiction ctr) ∧
      ctr.date = ⟨2020, 2, 5⟩ ∧
      ∃ f, Hb.catField ctr.key = some f ∧
        eFeb5'.fields f = some ctr.existing ∧
        p5807.vals f = some ctr.newVal ∧ ctr.existing ≠ ctr.newVal) := by
  refine ⟨?_, rfl, ?_⟩
  · exact ((c1_reconcile_amended dbFeb5 (some (2, 5)) rawHbFull p5806
      entryFeb5 rfl rfl).1 (by decide)).1
  · obtain ⟨ctr, hstep, hdate, -, hrest⟩ :=
      (c1_reconcile_amended dbFeb5' (some (2, 5)) raw5807 p5807
        eFeb5' rfl rfl).2 ⟨Hb.Cat.hb_total_confirmed, by decide, by decide⟩
    exact ⟨ctr, hstep, hdate, hrest⟩

/-! ## Persist operations and date uniqueness -/

theorem create_datesUnique (db : List DataEntry) (e : DataEntry)
    (db' : List DataEntry) (hu : datesUnique db)
    (h : create db e = .ok db') : datesUnique db' := by
  unfold create at h
  cases hany : db.any (fun x => x.date == e.date || x.article_url == e.article_url) with
  | true => rw [hany] at h; simp at h
  | false =>
    rw [hany] at h
    simp only [Bool.false_eq_true, if_false, Except.ok.injEq] at h
    subst h
    rw [datesUnique, List.pairwise_append]
    refine ⟨hu, List.pairwise_singleton _ _, ?_⟩
    intro a ha b hb
    obtain rfl : b = e := by simpa using hb
    have := (List.any_eq_false).mp hany a ha
    simp only [Bool.or_eq_true, beq_iff_eq, not_or] at this
    exact this.1

theorem hbUpdate_datesUnique (db : List DataEntry) (d : Date)
    (vals : Field → Option Int) (hu : datesUnique db) :
    datesUnique (Hb.hbUpdate db d vals) := by
  unfold Hb.hbUpdate datesUnique
  refine List.Pairwise.map _ ?_ hu
  intro a b hab
  have hda : (if a.date = d then Hb.mergeEntry a vals else a).date = a.date := by
    by_cases hx : a.date = d <;> simp [hx, mergeEntry_date]
  have hdb : (if b.date = d then Hb.mergeEntry b vals else b).date = b.date := by
    by_cases hx : b.date = d <;> simp [hx, mergeEntry_date]
  rw [hda, hdb]
  exact hab

theorem applyOp_datesUnique (db : List DataEntry) (op : PersistOp)
    (db' : List DataEntry) (hu : datesUnique db)
    (h : applyOp db op = .ok db') : datesUnique db' := by
  cases op with
  | nat e => exact create_datesUnique db e db' hu h
  | hb d vals =>
    unfold applyOp at h
    dsimp only at h
    cases hg : dbGet db d with
    | none => rw [hg] at h; exact absurd h (by simp)
    | some e =>
      rw [hg] at h
      dsimp only at h
      cases hcl : Hb.compareLoop e vals d Hb.catOrder with
      | some ctr => rw [hcl] at h; exact absurd h (by simp)
      | none =>
        rw [hcl] at h
        simp only [Except.ok.injEq] at h
        subst h
        exact hbUpdate_datesUnique db d vals hu

/-- C3 (counterexample): the national pipeline's persist
(`DataEntry.create`) on a date that already has a stored record does not
merge into it — it raises `IntegrityError` (the unique constraint), so the
claimed upsert behaviour does not hold for that pipeline. -/
theorem c3_persist_cx :
    entryFeb5Dup.date = entryFeb5.date ∧
    entryFeb5Dup.article_url ≠ entryFeb5.article_url ∧
    applyOp [entryFeb5] (.nat entryFeb5Dup) = .error () :=
  ⟨rfl, by decide, rfl⟩

/-- C3 (amended): the record date stays unique under every sequence of
persist operations from either pipeline — but the two pipelines achieve this
differently: the provincial persist merges fields into the existing same-date
record (same record count, merged fields), while the national persist refuses
with a uniqueness error on an already-stored date rather than merging (see
the counterexample); neither ever creates a second record for a date. -/
theorem c3_persist_amended :
    (∀ db ops db', datesUnique db → applySeq db ops = .ok db' →
      datesUnique db') ∧
    (∀ db d vals e, dbGet db d = some e →
      Hb.compareLoop e vals d Hb.catOrder = none →
      applyOp db (.hb d vals) = .ok (Hb.hbUpdate db d vals) ∧
      (Hb.hbUpdate db d vals).length = db.length ∧
      dbGet (Hb.hbUpdate db d vals) d = some (Hb.mergeEntry e vals)) ∧
    (∀ db e2, (∃ x ∈ db, x.date = e2.date) →
      applyOp db (.nat e2) = .error ()) := by
  refine ⟨?_, ?_, ?_⟩
  · intro db ops
    induction ops generalizing db with
    | nil =>
      intro db' hu h
      simp only [applySeq, Except.ok.injEq] at h
      subst h
      exact hu
    | cons op rest ih =>
      intro db' hu h
      unfold applySeq at h
      cases hop : applyOp db op with
      | error u => rw [hop] at h; exact absurd h (by simp)
      | ok db1 =>
        rw [hop] at h
        exact ih db1 db' (applyOp_datesUnique db op db1 hu hop) h
  · intro db d vals e he hcl
    refine ⟨?_, ?_, dbGet_hbUpdate db d vals e he⟩
    · unfold applyOp
      dsimp only
      rw [he]
      dsimp only
      rw [hcl]
    · unfold Hb.hbUpdate
      exact List.length_map _ _
  · intro db e2 ⟨x, hx, hdate⟩
    unfold applyOp create
    dsimp only
    have hany : db.any
        (fun y => y.date == e2.date || y.article_url == e2.article_url) = true :=
      List.any_eq_true.mpr ⟨x, hx, by simp [hdate]⟩
    rw [hany]
    rfl

/-- Witness for C3: one national insert from empty keeps dates unique, and a
provincial persist on the stored date merges via update. -/
theorem c3_persist_witness :
    datesUnique [entryFeb5] ∧
    applyOp [entryFeb5] (.hb ⟨2020, 2, 5⟩ (fun _ => some 7)) =
      .ok (Hb.hbUpdate [entryFeb5] ⟨2020, 2, 5⟩ (fun _ => some 7)) := by
  constructor
  · exact c3_persist_amended.1 [] [PersistOp.nat entryFeb5] [entryFeb5]
      List.Pairwise.nil rfl
  · exact (c3_persist_amended.2.1 [entryFeb5] ⟨2020, 2, 5⟩ (fun _ => some 7)
      entryFeb5 rfl (by decide)).1

/-! ## Discovery and the national pipeline (shared lemmas) -/

theorem mem_matchingArticles (pg : List (String × String))
    (a : String × String) (h : a ∈ matchingArticles pg) :
    (title_pattern_match a.2.data).isSome = true := by
  unfold matchingArticles at h
  exact (List.mem_filter.mp h).2

theorem walk_titles_aux (pages : List (List (String × String)))
    (seen : List String) :
    ∀ acc arts, (∀ a ∈ acc, (title_pattern_match a.2.data).isSome = true) →
      walkPages pages seen acc = some arts →
      ∀ a ∈ arts, (title_pattern_match a.2.data).isSome = true := by
  induction pages with
  | nil =>
    intro acc arts _ h
    simp [walkPages] at h
  | cons pg rest ih =>
    intro acc arts hacc h
    have hacc' : ∀ a ∈ acc ++ matchingArticles pg,
        (title_pattern_match a.2.data).isSome = true := by
      intro a ha
      cases List.mem_append.mp ha with
      | inl h1 => exact hacc a h1
      | inr h2 => exact mem_matchingArticles pg a h2
    unfold walkPages at h
    dsimp only at h
    cases hlast : (acc ++ matchingArticles pg).getLast? with
    | none => rw [hlast] at h; simp at h
    | some pr =>
      obtain ⟨u, t⟩ := pr
      rw [hlast] at h
      dsimp only at h
      by_cases hcond : t = boundaryTitle ∨ u ∈ seen
      · rw [if_pos hcond] at h
        simp only [Option.some.injEq] at h
        subst h
        intro a ha
        exact hacc' a (List.mem_reverse.mp ha)
      · rw [if_neg hcond] at h
        exact ih _ arts hacc' h

theorem walk_acc_mem (pages : List (List (String × String)))
    (seen : List String) :
    ∀ acc arts, walkPages pages seen acc = some arts →
      ∀ a ∈ acc, a ∈ arts := by
  induction pages with
  | nil =>
    intro acc arts h
    simp [walkPages] at h
  | cons pg rest ih =>
    intro acc arts h a ha
    unfold walkPages at h
    dsimp only at h
    cases hlast : (acc ++ matchingArticles pg).getLast? with
    | none => rw [hlast] at h; simp at h
    | some pr =>
      obtain ⟨u, t⟩ := pr
      rw [hlast] at h
      dsimp only at h
      by_cases hcond : t = boundaryTitle ∨ u ∈ seen
      · rw [if_pos hcond] at h
        simp only [Option.some.injEq] at h
        subst h
        exact List.mem_reverse.mpr (List.mem_append_left _ ha)
      · rw [if_neg hcond] at h
        exact ih _ arts h a (List.mem_append_left _ ha)

theorem create_ok_eq (db : List DataEntry) (e : DataEntry)
    (db' : List DataEntry) (h : create db e = .ok db') :
    db' = db ++ [e] := by
  unfold create at h
  cases hany : db.any
      (fun x => x.date == e.date || x.article_url == e.article_url) with
  | true => rw [hany] at h; simp at h
  | false =>
    rw [hany] at h
    simp only [Bool.false_eq_true, if_false, Except.ok.injEq] at h
    exact h.symm

theorem mainLoop_urls (content : String → FetchedArticle)
    (recorded : List String) :
    ∀ arts db db' ds, mainLoop content recorded db arts = .ok (db', ds) →
      (∀ u ∈ urls db, u ∈ urls db') ∧
      (∀ a ∈ arts, a.1 ∈ recorded ∨ a.1 ∈ urls db') := by
  intro arts
  induction arts with
  | nil =>
    intro db db' ds h
    unfold mainLoop at h
    simp only [Except.ok.injEq, Prod.mk.injEq] at h
    obtain ⟨rfl, -⟩ := h
    exact ⟨fun u hu => hu, by simp⟩
  | cons a rest ih =>
    intro db db' ds h
    obtain ⟨url, title⟩ := a
    unfold mainLoop at h
    by_cases hrec : url ∈ recorded
    · rw [if_pos hrec] at h
      obtain ⟨h1, h2⟩ := ih db db' ds h
      refine ⟨h1, ?_⟩
      intro a ha
      cases List.mem_cons.mp ha with
      | inl heq => subst heq; exact Or.inl hrec
      | inr hm => exact h2 a hm
    · rw [if_neg hrec] at h
      dsimp only at h
      cases hpa : parse_article (content url).title (content url).raw
          (content url).neg with
      | error pe => rw [hpa] at h; simp at h
      | ok p =>
        rw [hpa] at h
        dsimp only at h
        cases hcr : create db (mkEntry url (content url) p) with
        | error u => rw [hcr] at h; simp at h
        | ok db1 =>
          rw [hcr] at h
          dsimp only at h
          cases hrest : mainLoop content recorded db1 rest with
          | error er => rw [hrest] at h; simp at h
          | ok pr2 =>
            obtain ⟨dbf, dsf⟩ := pr2
            rw [hrest] at h
            simp only [Except.ok.injEq, Prod.mk.injEq] at h
            obtain ⟨rfl, -⟩ := h
            obtain ⟨h1, h2⟩ := ih db1 dbf dsf hrest
            have hdb1 : db1 = db ++ [_] := create_ok_eq db _ db1 hcr
            have hsub : ∀ u ∈ urls db, u ∈ urls db1 := by
              intro u hu
              rw [hdb1]
              unfold urls at hu ⊢
              rw [List.map_append]
              exact List.mem_append_left _ hu
            have hurl : url ∈ urls db1 := by
              rw [hdb1]
              unfold urls
              rw [List.map_append]
              exact List.mem_append_right _ (by simp [mkEntry])
            refine ⟨fun u hu => h1 u (hsub u hu), ?_⟩
            intro a ha
            cases List.mem_cons.mp ha with
            | inl heq => subst heq; exact Or.inr (h1 url hurl)
            | inr hm => exact h2 a hm

theorem mainLoop_skip_all (content : String → FetchedArticle)
    (recorded : List String) (db : List DataEntry) :
    ∀ arts, (∀ a ∈ arts, a.1 ∈ recorded) →
      mainLoop content recorded db arts = .ok (db, []) := by
  intro arts
  induction arts with
  | nil => intro _; rfl
  | cons a rest ih =>
    intro hall
    obtain ⟨url, t⟩ := a
    unfold mainLoop
    rw [if_pos (hall (url, t) (List.mem_cons_self _ _))]
    exact ih (fun x hx => hall x (List.mem_cons_of_mem _ hx))

/-- C8 (counterexample): a document with a malformed title is skipped
*silently*: the run on a page containing one malformed-title document and one
well-formed one succeeds, stores only the well-formed one, and emits *no*
diagnostic at all — refuting the claim's "skipped and logged" (no logging
call exists on the discovery filter path). -/
theorem c8_malformed_title_cx :
    title_pattern_match badTitle.data = none ∧
    walkPages pagesBad [] [] = some [("good-url", boundaryTitle)] ∧
    run_main pagesBad contentAll [] = .ok (dbC8, []) ∧
    urls dbC8 = ["good-url"] :=
  ⟨rfl, rfl, rfl, rfl⟩

/-- C8 (amended): a title that does not match the expected date shape never
crashes the batch: the resolver totally returns "no match", discovery filters
such documents out (every discovered article's title matches), and the run is
identical to the run on the pre-filtered index — but the skip is silent, with
no log entry for the skipped document (see the counterexample). -/
theorem c8_malformed_title_amended :
    (∀ pages seen arts, walkPages pages seen [] = some arts →
      ∀ a ∈ arts, (title_pattern_match a.2.data).isSome = true) ∧
    (∀ pages seen acc, walkPages (pages.map matchingArticles) seen acc =
      walkPages pages seen acc) := by
  constructor
  · intro pages seen arts h
    exact walk_titles_aux pages seen [] arts (by simp) h
  · intro pages seen
    induction pages with
    | nil => intro acc; rfl
    | cons pg rest ih =>
      intro acc
      have hid : matchingArticles (matchingArticles pg) = matchingArticles pg := by
        unfold matchingArticles
        simp [List.filter_filter]
      rw [List.map_cons]
      unfold walkPages
      dsimp only
      rw [hid, ih (acc ++ matchingArticles pg)]

/-- Witness for C8: the discovered article's title matches, and the walk on
the pre-filtered index coincides with the original walk. -/
theorem c8_malformed_title_witness :
    (title_pattern_match boundaryTitle.data).isSome = true ∧
    walkPages (pagesBad.map matchingArticles) [] [] =
      walkPages pagesBad [] [] := by
  constructor
  · exact c8_malformed_title_amended.1 pagesBad [] [("good-url", boundaryTitle)]
      rfl ("good-url", boundaryTitle) (by simp)
  · exact c8_malformed_title_amended.2 pagesBad [] []

/-- C9 (confirmed): a second run of the primary pipeline on the same inputs
returns the store of the first run unchanged and emits no diagnostics: every
url of the first page is already recorded, so discovery stops there and the
per-article loop skips everything. -/
theorem c9_idempotent (pages : List (List (String × String)))
    (content : String → FetchedArticle) (db0 db1 : List DataEntry)
    (ds : List (Date × Field))
    (h : run_main pages content db0 = .ok (db1, ds)) :
    run_main pages content db1 = .ok (db1, []) := by
  unfold run_main at h ⊢
  cases hw : walkPages pages (urls db0) [] with
  | none => rw [hw] at h; simp at h
  | some arts1 =>
    rw [hw] at h
    dsimp only at h
    obtain ⟨hsub, hall⟩ := mainLoop_urls content (urls db0) arts1 db0 db1 ds h
    have hall1 : ∀ a ∈ arts1, a.1 ∈ urls db1 := by
      intro a ha
      cases hall a ha with
      | inl hr => exact hsub a.1 hr
      | inr h1 => exact h1
    cases pages with
    | nil => simp [walkPages] at hw
    | cons pg rest =>
      unfold walkPages at hw
      dsimp only at hw
      cases hlast : (([] : List (String × String)) ++ matchingArticles pg).getLast? with
      | none => rw [hlast] at hw; simp at hw
      | some pr =>
        obtain ⟨u, t⟩ := pr
        rw [hlast] at hw
        dsimp only at hw
        have hmsub : ∀ a ∈ matchingArticles pg, a ∈ arts1 := by
          by_cases hcond : t = boundaryTitle ∨ u ∈ urls db0
          · rw [if_pos hcond] at hw
            simp only [Option.some.injEq] at hw
            subst hw
            intro a ha
            exact List.mem_reverse.mpr (by simpa using ha)
          · rw [if_neg hcond] at hw
            intro a ha
            exact walk_acc_mem rest (urls db0) _ arts1 hw a (by simpa using ha)
        have humem : (u, t) ∈ matchingArticles pg := by
          have := List.mem_of_mem_getLast? hlast
          simpa using this
        have hu1 : u ∈ urls db1 := hall1 (u, t) (hmsub _ humem)
        have hw2 : walkPages (pg :: rest) (urls db1) [] =
            some (([] ++ matchingArticles pg).reverse) := by
          unfold walkPages
          dsimp only
          rw [hlast]
          dsimp only
          rw [if_pos (Or.inr hu1)]
        rw [hw2]
        dsimp only
        refine mainLoop_skip_all content (urls db1) db1 _ ?_
        intro a ha
        have ham : a ∈ matchingArticles pg := by
          simpa using List.mem_reverse.mp ha
        exact hall1 a (hmsub a ham)

/-- Witness for C9: a one-page, one-article index processed from an empty
store; re-running on the resulting store returns it unchanged with no
diagnostics. -/
theorem c9_idempotent_witness :
    run_main pages9 contentAll c9db = .ok (c9db, []) :=
  c9_idempotent pages9 contentAll [] c9db c9ds rfl

end Ncov
